import Mathlib

/-!
Shallow embedding of the flow-manipulation and display-logic core of the
qualtrics_sdk repository (files `core/embedded_data.py`, `core/display_logic.py`,
`core/randomization.py`), together with proofs settling the frozen claims.

Conventions of the embedding:
* Python dicts with a fixed schema become Lean structures.  A string-valued
  key read with `d.get(k, '')` is a `String` field where `""` models an
  absent key; a key read with `d.get(k)` and compared against `None` is an
  `Option` field; a list key read with `d.get(k, [])` is a `List` field.
* The HTTP calls (`requests.get` / `requests.put`) are modelled as events in
  a trace; the remote document a GET would return is a parameter of the
  modelled operation, and the value of a successful run is the document the
  final PUT writes.
* `re.match r"FL_(\d+)"` anchors at the start of the string only, so it is
  modelled as: the literal prefix `FL_` followed by a maximal non-empty run
  of decimal digits.
-/

/-- An embedded-data field item, the dict
`{Description, Type, Field, VariableType, DataVisibility, Value?}` built by
`set_embedded_data` / `set_embedded_data_fields`.  `Value` is optional
(only present when `value is not None`). -/
structure EDField where
  description : String
  ftype : String
  field : String
  variableType : String
  dataVisibility : List String
  value : Option String
  deriving Repr, DecidableEq

/-- A survey-flow element.  Covers every key the modelled code reads:
`Type`, `FlowID`, `ID` (block reference), `EmbeddedData` (field list),
`Flow` (nested list, present only on randomizers), and the
randomizer-specific keys `SubSet`, `EvenPresentation`, `Randomization`.
Absent string keys are `""`, absent lists are `[]` / `none`. -/
inductive FlowElem : Type where
  | mk
      (type : String)
      (flowID : String)
      (id : String)
      (embeddedData : List EDField)
      (flow : Option (List FlowElem))
      (subSet : Option Nat)
      (evenPresentation : Option Bool)
      (randomization : Option String)

def FlowElem.type : FlowElem → String
  | .mk t _ _ _ _ _ _ _ => t

def FlowElem.flowID : FlowElem → String
  | .mk _ f _ _ _ _ _ _ => f

def FlowElem.id : FlowElem → String
  | .mk _ _ i _ _ _ _ _ => i

def FlowElem.embeddedData : FlowElem → List EDField
  | .mk _ _ _ e _ _ _ _ => e

def FlowElem.flow : FlowElem → Option (List FlowElem)
  | .mk _ _ _ _ f _ _ _ => f

def FlowElem.subSet : FlowElem → Option Nat
  | .mk _ _ _ _ _ s _ _ => s

def FlowElem.evenPresentation : FlowElem → Option Bool
  | .mk _ _ _ _ _ _ e _ => e

def FlowElem.randomization : FlowElem → Option String
  | .mk _ _ _ _ _ _ _ r => r

/-- Replace the `EmbeddedData` list of an element, keeping every other key
(models the in-place dict update `element["EmbeddedData"] = new_fields`). -/
def FlowElem.withED : FlowElem → List EDField → FlowElem
  | .mk t f i _ fl s e r, ed => .mk t f i ed fl s e r

/-- The leading run of decimal digits of a character list. -/
def leadDigits : List Char → List Char
  | [] => []
  | c :: cs => if c.isDigit then c :: leadDigits cs else []

/-- Value of a digit character list, most significant first. -/
def digitsToNat (ds : List Char) : Nat :=
  ds.foldl (fun a c => a * 10 + (c.toNat - 48)) 0

/-- Model of `re.match(r"FL_(\d+)", s)` returning `int(group(1))`:
`some n` when `s` starts with `FL_` followed by at least one digit,
`n` being the value of the maximal digit run. -/
def parseFLNum (s : String) : Option Nat :=
  match s.data with
  | 'F' :: 'L' :: '_' :: rest =>
      let ds := leadDigits rest
      if ds.isEmpty then none else some (digitsToNat ds)
  | _ => none

/-- One step of the `max_id` accumulation of `_get_next_flow_id`: take the
max with the parsed number when the ID matches, otherwise keep the
accumulator. -/
def maxWithFL (acc : Nat) (s : String) : Nat :=
  match parseFLNum s with
  | some n => max acc n
  | none => acc

/-- The `max_id` computed by `_get_next_flow_id`: folds over the top-level
elements, and inside each element also over its nested `Flow` list when
present. -/
def maxFlowIdFold (flow_list : List FlowElem) : Nat :=
  flow_list.foldl
    (fun max_id e =>
      let m1 := maxWithFL max_id e.flowID
      match e.flow with
      | some nested => nested.foldl (fun m n => maxWithFL m n.flowID) m1
      | none => m1)
    0

/-- Model of `_get_next_flow_id`: `FL_<max+1>`. -/
def get_next_flow_id (flow_list : List FlowElem) : String :=
  "FL_" ++ Nat.repr (maxFlowIdFold flow_list + 1)

/-- Model of `_count_flow_elements`: every element counts once, plus its nested
`Flow` list when present. -/
def count_flow_elements : List FlowElem → Nat
  | [] => 0
  | .mk _ _ _ _ (some nested) _ _ _ :: rest =>
      1 + count_flow_elements nested + count_flow_elements rest
  | .mk _ _ _ _ none _ _ _ :: rest =>
      1 + count_flow_elements rest

/-- The field item dict built by both embedded-data setters:
`{Description: name, Type: "Custom", Field: name, VariableType: "String",
DataVisibility: [], Value?: value}`.  Note `VariableType` is the constant
`"String"` and the `field_type` argument does not reach this dict. -/
def buildFieldItem (field_name : String) (value : Option String) : EDField :=
  { description := field_name
    ftype := "Custom"
    field := field_name
    variableType := "String"
    dataVisibility := []
    value := value }

/-- Model of `f.update(field_item)`: every key present in `field_item` overwrites the
one in `f`; `Value` is only present in `field_item` when a value was
supplied, so an absent value leaves the old `Value` in place. -/
def updateField (f : EDField) (item : EDField) : EDField :=
  { description := item.description
    ftype := item.ftype
    field := item.field
    variableType := item.variableType
    dataVisibility := item.dataVisibility
    value :=
      match item.value with
      | some v => some v
      | none => f.value }

/-- Update the first field whose `Field` equals the item's, in place
(the `for f in existing_fields: ... break` loop). -/
def replaceFirstField : List EDField → EDField → List EDField
  | [], _ => []
  | f :: rest, item =>
      if f.field = item.field then updateField f item :: rest
      else f :: replaceFirstField rest item

/-- The single-field upsert both position branches of `set_embedded_data`
perform on an existing field list: replace the first name match in place
when one exists, append otherwise. -/
def upsertIntoFields (fields : List EDField) (item : EDField) : List EDField :=
  if fields.any (fun f => f.field = item.field) then
    replaceFirstField fields item
  else fields ++ [item]

/-- The `end_idx` computation: index of the first `EndSurvey` element, or the list length
when there is none. -/
def findEndIdx (flow_list : List FlowElem) : Nat :=
  match flow_list.findIdx? (fun e => e.type = "EndSurvey") with
  | some i => i
  | none => flow_list.length

/-- The fresh EmbeddedData group element both setters build. -/
def newEDElem (flow_list : List FlowElem) (items : List EDField) : FlowElem :=
  .mk "EmbeddedData" (get_next_flow_id flow_list) "" items none none none none

/-- The pure flow mutation of `set_embedded_data` (lines 119-171): the
`position == "start"` and `position == "end"` branches. -/
def setED_splice (flow_list : List FlowElem) (item : EDField)
    (position : String) : List FlowElem :=
  if position = "start" then
    match flow_list with
    | e :: rest =>
        if e.type = "EmbeddedData" then
          e.withED (upsertIntoFields e.embeddedData item) :: rest
        else
          newEDElem flow_list [item] :: flow_list
    | [] => [newEDElem [] [item]]
  else
    match findEndIdx flow_list, flow_list[findEndIdx flow_list - 1]? with
    | prev + 1, some e =>
        if e.type = "EmbeddedData" then
          flow_list.set prev (e.withED (upsertIntoFields e.embeddedData item))
        else
          flow_list.insertIdx (findEndIdx flow_list) (newEDElem flow_list [item])
    | _, _ =>
        flow_list.insertIdx (findEndIdx flow_list) (newEDElem flow_list [item])

/-- The multi-field upsert loop of `set_embedded_data_fields`: the set of
existing names is computed once, before the loop, and each item is then
replaced in place or appended. -/
def upsertManyFields (existing : List EDField) (items : List EDField) :
    List EDField :=
  let names := existing.map (fun f => f.field)
  items.foldl
    (fun acc item =>
      if names.contains item.field then replaceFirstField acc item
      else acc ++ [item])
    existing

/-- The pure flow mutation of `set_embedded_data_fields` (lines 275-332).
The only structural difference from `setED_splice` is the `end_idx > 1`
guard on the end branch (`set_embedded_data` checks `end_idx > 0`). -/
def setEDFields_splice (flow_list : List FlowElem) (items : List EDField)
    (position : String) : List FlowElem :=
  if position = "start" then
    match flow_list with
    | e :: rest =>
        if e.type = "EmbeddedData" then
          e.withED (upsertManyFields e.embeddedData items) :: rest
        else
          newEDElem flow_list items :: flow_list
    | [] => [newEDElem [] items]
  else
    if findEndIdx flow_list > 1 then
      match flow_list[findEndIdx flow_list - 1]? with
      | some e =>
          if e.type = "EmbeddedData" then
            flow_list.set (findEndIdx flow_list - 1)
              (e.withED (upsertManyFields e.embeddedData items))
          else
            flow_list.insertIdx (findEndIdx flow_list) (newEDElem flow_list items)
      | none =>
          flow_list.insertIdx (findEndIdx flow_list) (newEDElem flow_list items)
    else
      flow_list.insertIdx (findEndIdx flow_list) (newEDElem flow_list items)

/-- Whether an element is an EmbeddedData group containing a field with the
given name. -/
def groupContains (e : FlowElem) (field_name : String) : Bool :=
  e.type = "EmbeddedData" && e.embeddedData.any (fun f => f.field = field_name)

/-- The deletion loop of `delete_embedded_data` (lines 418-428): walk the
top-level elements; at the first EmbeddedData group whose field list
shrinks under the name filter, keep the filtered list and stop.  `none`
models `field_found == False` (the not-found error path, before any
write). -/
def deleteED_splice : List FlowElem → String → Option (List FlowElem)
  | [], _ => none
  | e :: rest, field_name =>
      if e.type = "EmbeddedData" &&
          ((e.embeddedData.filter (fun f => f.field ≠ field_name)).length ≠
            e.embeddedData.length : Bool) then
        some (e.withED (e.embeddedData.filter (fun f => f.field ≠ field_name))
          :: rest)
      else
        (deleteED_splice rest field_name).map (fun l => e :: l)

/-- A network call issued by an operation (`requests.get` / `requests.put`,
and `get_question`, whose body is a GET). -/
inductive NetEvent : Type where
  | getFlow
  | putFlow
  | getSurvey
  | getQuestion
  | putQuestion
  deriving Repr, DecidableEq

/-- One run of an operation: the network calls it issues, in order, and its
outcome (`.error` models a raised exception). -/
structure OpRun (α : Type) where
  events : List NetEvent
  result : Except String α

/-- The flow document: the `Flow` list plus the `Count` entry of the
`Properties` dict.  `props = none` models an absent `Properties` key,
`some none` a `Properties` dict without `Count`, `some (some n)` a
`Properties` dict with `Count = n`. -/
structure FlowDoc where
  flow : List FlowElem
  props : Option (Option Nat)

def valid_types : List String := ["text", "number", "date"]

/-- Model of `set_embedded_data` (lines 61-196): validate `field_type`, then
`position`, both before the flow GET; on success the written document
carries the spliced flow and a recomputed `Properties.Count`. -/
def set_embedded_data_run (fetched : FlowDoc) (field_name : String)
    (field_type : String) (value : Option String) (position : String) :
    OpRun FlowDoc :=
  if ¬ valid_types.contains field_type then
    ⟨[], .error "field_type must be one of [text, number, date]"⟩
  else if position ≠ "start" ∧ position ≠ "end" then
    ⟨[], .error "position must be start or end"⟩
  else
    let flow2 := setED_splice fetched.flow (buildFieldItem field_name value)
      position
    ⟨[.getFlow, .putFlow],
      .ok ⟨flow2, some (some (count_flow_elements flow2))⟩⟩

/-- One field configuration of `set_embedded_data_fields`: the dict values
read with `config.get("type", "text")` and `config.get("value")`. -/
structure FieldConfig where
  ftype : Option String
  value : Option String
  deriving Repr, DecidableEq

/-- The item-building loop of `set_embedded_data_fields` (lines 251-273):
walks the fields in order and raises at the first invalid `type`. -/
def buildEDItems : List (String × FieldConfig) → Except String (List EDField)
  | [] => .ok []
  | (field_name, config) :: rest =>
      if ¬ valid_types.contains (config.ftype.getD "text") then
        .error ("field_type for " ++ field_name ++ " must be one of [text, number, date]")
      else
        (buildEDItems rest).map
          (fun items => buildFieldItem field_name config.value :: items)

/-- Model of `set_embedded_data_fields` (lines 198-356): the `position` check is
before the flow GET, but the per-field `type` check runs after it. -/
def set_embedded_data_fields_run (fetched : FlowDoc)
    (fields : List (String × FieldConfig)) (position : String) :
    OpRun FlowDoc :=
  if position ≠ "start" ∧ position ≠ "end" then
    ⟨[], .error "position must be start or end"⟩
  else
    match buildEDItems fields with
    | .error e => ⟨[.getFlow], .error e⟩
    | .ok items =>
        let flow2 := setEDFields_splice fetched.flow items position
        ⟨[.getFlow, .putFlow],
          .ok ⟨flow2, some (some (count_flow_elements flow2))⟩⟩

/-- Model of `delete_embedded_data` (lines 389-449): GET, then the deletion loop;
the not-found error is raised before the PUT. -/
def delete_embedded_data_run (fetched : FlowDoc) (field_name : String) :
    OpRun FlowDoc :=
  match deleteED_splice fetched.flow field_name with
  | none => ⟨[.getFlow], .error ("Embedded data field " ++ field_name ++ " not found")⟩
  | some flow2 =>
      ⟨[.getFlow, .putFlow],
        .ok ⟨flow2, some (some (count_flow_elements flow2))⟩⟩

/-- A display-logic condition dict; keys absent from a given build are
`none`. -/
structure Condition where
  type : String
  logicType : String
  questionID : Option String
  questionIsInLoop : Option String
  choiceLocator : Option String
  questionIDFromLocator : Option String
  leftOperand : Option String
  operator : Option String
  rightOperand : Option String
  deriving Repr, DecidableEq

/-- Python truthiness of an optional string (`if choice_locator:`). -/
def truthy : Option String → Bool
  | some s => s ≠ ""
  | none => false

/-- Model of `_build_condition` (lines 37-84). -/
def build_condition (question_id : String) (op : String)
    (choice_locator : Option String) (value : Option String)
    (logic_type : String) : Condition :=
  let base : Condition :=
    { type := "Expression", logicType := logic_type, questionID := none
      questionIsInLoop := none, choiceLocator := none
      questionIDFromLocator := none, leftOperand := none, operator := none
      rightOperand := none }
  if logic_type = "Question" then
    if truthy choice_locator then
      { base with
          questionID := some question_id
          questionIsInLoop := some "no"
          choiceLocator := choice_locator
          questionIDFromLocator := some question_id
          leftOperand := choice_locator
          operator := some op }
    else
      { base with
          questionID := some question_id
          questionIsInLoop := some "no"
          leftOperand := some ("q://" ++ question_id ++ "/SelectableChoice")
          operator := some op
          rightOperand := value }
  else if logic_type = "EmbeddedField" then
    { base with
        leftOperand := some ("ed://" ++ question_id)
        operator := some op
        rightOperand := value }
  else
    base

def OPERATORS : List String :=
  ["Selected", "NotSelected", "Displayed", "NotDisplayed", "EqualTo",
   "NotEqualTo", "GreaterThan", "LessThan", "GreaterOrEqual", "LessOrEqual",
   "Contains", "DoesNotContain", "MatchesRegex", "Empty", "NotEmpty"]

/-- One entry of the multi-condition input list (`conditions[i]`); an absent
`operator` key is `""` (which is not in `OPERATORS`, like Python `None`). -/
structure CondInput where
  source_question_id : String
  operator : String
  choice_locator : Option String
  value : Option String
  deriving Repr, DecidableEq

/-- One entry of the built `If` block: the stringified-index key, the
`Conjunction` tag (absent on the first condition), and the condition. -/
structure LogicEntry where
  key : String
  conjunction : Option String
  cond : Condition
  deriving Repr, DecidableEq

/-- Python `str.capitalize()`: first character upper-cased, the rest
lower-cased. -/
def pyCapitalize (s : String) : String :=
  match s.data with
  | [] => ""
  | c :: cs => String.mk (c.toUpper :: cs.map Char.toLower)

/-- The condition-building loop of `add_display_logic_multiple`
(lines 229-242), carrying the running index `i`: validate each operator,
build the condition under key `str(i)`, and tag every entry with `i > 0`
with `conjunction.capitalize()`. -/
def buildCondEntries (conjunction : String) :
    Nat → List CondInput → Except String (List LogicEntry)
  | _, [] => .ok []
  | i, c :: rest =>
      if ¬ OPERATORS.contains c.operator then
        .error ("Invalid operator " ++ c.operator ++ " in condition " ++ Nat.repr i)
      else
        (buildCondEntries conjunction (i + 1) rest).map
          (fun l =>
            { key := Nat.repr i
              conjunction :=
                if i > 0 then some (pyCapitalize conjunction) else none
              cond := build_condition c.source_question_id c.operator
                c.choice_locator c.value "Question" } :: l)

/-- Model of `add_display_logic_multiple` (lines 179-293): conjunction check, empty
check and the per-condition operator checks all run before `get_question`;
the run's value is the list of condition entries of the `If` block of the
written `DisplayLogic`. -/
def add_display_logic_multiple_run (conds : List CondInput)
    (conjunction : String) : OpRun (List LogicEntry) :=
  if conjunction ≠ "AND" ∧ conjunction ≠ "OR" then
    ⟨[], .error "conjunction must be AND or OR"⟩
  else if conds.isEmpty then
    ⟨[], .error "At least one condition is required"⟩
  else
    match buildCondEntries conjunction 0 conds with
    | .error e => ⟨[], .error e⟩
    | .ok entries => ⟨[.getQuestion, .putQuestion], .ok entries⟩

/-- The `inverse_operators` table of `skip_if` (lines 334-349). -/
def inverse_operators : List (String × String) :=
  [("Selected", "NotSelected"), ("NotSelected", "Selected"),
   ("EqualTo", "NotEqualTo"), ("NotEqualTo", "EqualTo"),
   ("GreaterThan", "LessOrEqual"), ("LessThan", "GreaterOrEqual"),
   ("GreaterOrEqual", "LessThan"), ("LessOrEqual", "GreaterThan"),
   ("Contains", "DoesNotContain"), ("DoesNotContain", "Contains"),
   ("Empty", "NotEmpty"), ("NotEmpty", "Empty"),
   ("Displayed", "NotDisplayed"), ("NotDisplayed", "Displayed")]

/-- Model of `inverse_operators.get(operator, operator)`. -/
def invert_op (op : String) : String :=
  ((inverse_operators.lookup op).getD op)

/-- The nested `Block` reference built for each id inside the randomizer:
`{Type: "Block", ID: block_id, FlowID: "FL_" + block_id}`. -/
def blockRef (block_id : String) : FlowElem :=
  .mk "Block" ("FL_" ++ block_id) block_id [] none none none none

/-- The `BlockRandomizer` element of `randomize_blocks` (lines 62-80).
`SubSet` uses Python truthiness of `subset_count` (a given `0` falls back
to `len(block_ids)`). -/
def buildRandomizer (survey_id : String) (block_ids : List String)
    (rtype : String) (evenly : Bool) (subset : Option Nat) : FlowElem :=
  .mk "BlockRandomizer"
    ("FL_Randomizer_" ++ survey_id.take 8)
    ""
    []
    (some (block_ids.map blockRef))
    (some
      (match subset with
       | some c => if c = 0 then block_ids.length else c
       | none => block_ids.length))
    (some evenly)
    (if rtype = "balanced" then some "Balanced" else none)

/-- The flow rebuild loop of `randomize_blocks` (lines 83-95): the first
top-level block in the id set is replaced by the randomizer, later ones
are dropped, everything else is kept. -/
def spliceRandomizer (randomizer : FlowElem) (bids : List String) :
    List FlowElem → Bool → List FlowElem
  | [], _ => []
  | e :: rest, added =>
      if e.type = "Block" ∧ bids.contains e.id then
        if added then spliceRandomizer randomizer bids rest true
        else randomizer :: spliceRandomizer randomizer bids rest true
      else e :: spliceRandomizer randomizer bids rest added

/-- Model of `randomize_blocks` (lines 20-120): the `subset_count` check runs before
the survey GET; the written `Properties` are the fetched ones when the
`Properties` key exists, else `{Count: len(new_flow)}` (top-level length). -/
def randomize_blocks_run (fetched : FlowDoc) (survey_id : String)
    (block_ids : List String) (rtype : String) (evenly : Bool)
    (subset : Option Nat) : OpRun FlowDoc :=
  if (match subset with
      | some c => decide (c ≥ block_ids.length)
      | none => false : Bool) then
    ⟨[], .error "subset_count must be less than the number of block_ids"⟩
  else
    let randomizer := buildRandomizer survey_id block_ids rtype evenly subset
    let spliced := spliceRandomizer randomizer block_ids fetched.flow false
    let new_flow :=
      if fetched.flow.any (fun e => e.type = "Block" ∧ block_ids.contains e.id)
      then spliced
      else randomizer :: spliced
    ⟨[.getSurvey, .putFlow],
      .ok ⟨new_flow,
        match fetched.props with
        | some p => some p
        | none => some (some new_flow.length)⟩⟩

/-- All identifiers `nextFlowId` scans, in scan order: every top-level
`FlowID` and, one nesting level deep, the `FlowID`s of a present nested
`Flow` list. -/
def collectFlowIds : List FlowElem → List String
  | [] => []
  | e :: rest =>
      e.flowID ::
        ((match e.flow with
          | some nested => nested.map FlowElem.flowID
          | none => []) ++ collectFlowIds rest)

/-- Modelled from the spec: the maximum `n` over all scanned identifiers
matching `FL_<n>`, `0` when none match (non-matching identifiers are
skipped, contributing nothing). -/
def specMaxFL (fl : List FlowElem) : Nat :=
  ((collectFlowIds fl).filterMap parseFLNum).foldr max 0

/-- The decimal digit characters of a number, most significant first. -/
def decChars (n : Nat) : List Char :=
  if _h : n < 10 then [Nat.digitChar n]
  else decChars (n / 10) ++ [Nat.digitChar (n % 10)]
  termination_by n
  decreasing_by omega

/-- Projection used by concrete counterexamples: the FlowIDs (one nesting
level included) of the flow a successful run writes. -/
def okFlowIds (r : OpRun FlowDoc) : Option (List String) :=
  match r.result with
  | .ok d => some (collectFlowIds d.flow)
  | .error _ => none

/-- Fixture: a plain block element. -/
def blockExample : FlowElem :=
  .mk "Block" "FL_1" "BL_1" [] none none none none

/-- Fixture: an EndSurvey element. -/
def endSurveyExample : FlowElem :=
  .mk "EndSurvey" "FL_2" "" [] none none none none

/-- Fixture: an EmbeddedData group sitting at the very first flow position,
holding one field `a`. -/
def edGroupExample : FlowElem :=
  .mk "EmbeddedData" "FL_1" "" [buildFieldItem "a" (some "1")] none none none
    none

/-- Fixture: a second plain block. -/
def blockExample2 : FlowElem :=
  .mk "Block" "FL_3" "BL_2" [] none none none none

/-- The `Properties`/`Count` part of the document a successful run
writes. -/
def okProps (r : OpRun FlowDoc) : Option (Option (Option Nat)) :=
  match r.result with
  | .ok d => some d.props
  | .error _ => none

/-- The recursive element count of the flow a successful run writes. -/
def okCount (r : OpRun FlowDoc) : Option Nat :=
  match r.result with
  | .ok d => some (count_flow_elements d.flow)
  | .error _ => none

/-- Whether a run raised. -/
def runFailed {α : Type} (r : OpRun α) : Bool :=
  match r.result with
  | .error _ => true
  | .ok _ => false

/-- The `Conjunction` tags of the entries a successful display-logic run
writes. -/
def entriesConj (r : OpRun (List LogicEntry)) : Option (List (Option String)) :=
  match r.result with
  | .ok l => some (l.map (fun en => en.conjunction))
  | .error _ => none

/-- Fixture: a choice condition on QID1. -/
def condInputA : CondInput :=
  ⟨"QID1", "Selected", some "q://QID1/SelectableChoice/1", none⟩

/-- Fixture: a value condition on QID2. -/
def condInputB : CondInput :=
  ⟨"QID2", "GreaterThan", none, some "5"⟩

/-- Fixture: an EmbeddedData group that already contains two fields with
the same name `a`. -/
def dupGroupExample : FlowElem :=
  .mk "EmbeddedData" "FL_1" ""
    [buildFieldItem "a" (some "1"), buildFieldItem "a" (some "2")]
    none none none none

theorem count_cons_nested (e : FlowElem) (nested rest : List FlowElem)
    (h : e.flow = some nested) :
    count_flow_elements (e :: rest) =
      1 + count_flow_elements nested + count_flow_elements rest := by
  cases e with
  | mk t f i ed fl s ev r =>
      cases fl with
      | some l =>
          cases h
          simp [count_flow_elements]
      | none => cases h

theorem count_cons_flat (e : FlowElem) (rest : List FlowElem)
    (h : e.flow = none) :
    count_flow_elements (e :: rest) = 1 + count_flow_elements rest := by
  cases e with
  | mk t f i ed fl s ev r =>
      cases fl with
      | some l => cases h
      | none => simp [count_flow_elements]

theorem lookup_eq_none_of_keys (a : String) (l : List (String × String))
    (h : ∀ p ∈ l, p.1 ≠ a) : l.lookup a = none := by
  induction l with
  | nil => rfl
  | cons p rest ih =>
      have hp : p.1 ≠ a := h p (List.mem_cons_self p rest)
      have hb : (a == p.1) = false := by
        simp [beq_eq_false_iff_ne]
        exact fun hc => hp hc.symm
      simp [List.lookup, hb]
      intro a1 b hmem hc
      exact h (a1, b) (List.mem_cons_of_mem p hmem) hc.symm

/-- C6: the skip-logic operator inversion is an involution on every
operator, and an operator with no entry in the inversion table (such as
`MatchesRegex`) passes through unchanged. -/
theorem skip_invert_involution (op : String) :
    invert_op (invert_op op) = op ∧
      (inverse_operators.lookup op = none → invert_op op = op) := by
  constructor
  · by_cases hm : op ∈ inverse_operators.map Prod.fst
    · simp only [inverse_operators, List.map] at hm
      fin_cases hm <;> decide
    · have hnone : inverse_operators.lookup op = none := by
        apply lookup_eq_none_of_keys
        intro p hp hc
        exact hm (hc ▸ List.mem_map_of_mem Prod.fst hp)
      simp [invert_op, hnone]
  · intro hnone
    simp [invert_op, hnone]

/-- Witness for `skip_invert_involution` at `MatchesRegex`. -/
theorem skip_invert_involution_witness :
    invert_op (invert_op "MatchesRegex") = "MatchesRegex" ∧
      invert_op "MatchesRegex" = "MatchesRegex" :=
  ⟨(skip_invert_involution "MatchesRegex").1,
   (skip_invert_involution "MatchesRegex").2 (by decide)⟩

theorem foldl_maxWithFL (l : List String) (acc : Nat) :
    l.foldl maxWithFL acc = max acc ((l.filterMap parseFLNum).foldr max 0) := by
  induction l generalizing acc with
  | nil => simp
  | cons s rest ih =>
      simp only [List.foldl_cons, List.filterMap_cons]
      cases h : parseFLNum s with
      | none =>
          have : maxWithFL acc s = acc := by simp [maxWithFL, h]
          rw [this, ih]
      | some n =>
          have : maxWithFL acc s = max acc n := by simp [maxWithFL, h]
          rw [this, ih]
          simp only [List.foldr_cons]
          omega

theorem maxFlowIdFold_eq_collect (fl : List FlowElem) :
    ∀ acc : Nat,
      fl.foldl
        (fun max_id e =>
          let m1 := maxWithFL max_id e.flowID
          match e.flow with
          | some nested => nested.foldl (fun m n => maxWithFL m n.flowID) m1
          | none => m1)
        acc =
      (collectFlowIds fl).foldl maxWithFL acc := by
  induction fl with
  | nil => intro acc; rfl
  | cons e rest ih =>
      intro acc
      simp only [List.foldl_cons, collectFlowIds, List.foldl_append]
      cases h : e.flow with
      | some nested =>
          rw [ih]
          simp [h, List.foldl_map]
      | none =>
          rw [ih]
          simp [h]

/-- C7: `nextFlowId` returns `FL_<m+1>` where `m` is the maximum `n` over
the scanned identifiers (top level plus one nesting level) matching
`FL_<n>`, `0` when none match, non-matching identifiers being skipped; on
a flow carrying `FL_1`, `FL_2` and a nested `FL_7` it returns `FL_8`. -/
theorem next_flow_id_spec (fl : List FlowElem) :
    get_next_flow_id fl = "FL_" ++ Nat.repr (specMaxFL fl + 1) ∧
      get_next_flow_id
        [FlowElem.mk "Block" "FL_1" "BL_a" [] none none none none,
         FlowElem.mk "BlockRandomizer" "FL_2" "" []
           (some [FlowElem.mk "Block" "FL_7" "BL_b" [] none none none none])
           (some 1) (some false) none] = "FL_8" := by
  constructor
  · have h1 : maxFlowIdFold fl = specMaxFL fl := by
      rw [maxFlowIdFold, maxFlowIdFold_eq_collect, specMaxFL]
      rw [foldl_maxWithFL]
      omega
    rw [get_next_flow_id, h1]
  · decide

theorem decChars_small {n : Nat} (h : n < 10) :
    decChars n = [Nat.digitChar n] := by
  rw [decChars]
  simp [h]

theorem decChars_large {n : Nat} (h : ¬ n < 10) :
    decChars n = decChars (n / 10) ++ [Nat.digitChar (n % 10)] := by
  rw [decChars]
  simp [h]

theorem digitChar_isDigit {n : Nat} (h : n < 10) :
    (Nat.digitChar n).isDigit = true := by
  interval_cases n <;> decide

theorem digitChar_val {n : Nat} (h : n < 10) :
    (Nat.digitChar n).toNat - 48 = n := by
  interval_cases n <;> decide

theorem decChars_all_digits (n : Nat) :
    ∀ c ∈ decChars n, c.isDigit = true := by
  induction n using Nat.strong_induction_on with
  | _ n ih =>
      by_cases h : n < 10
      · rw [decChars_small h]
        intro c hc
        rw [List.mem_singleton] at hc
        exact hc ▸ digitChar_isDigit h
      · rw [decChars_large h]
        intro c hc
        rcases List.mem_append.mp hc with h1 | h2
        · exact ih (n / 10) (by omega) c h1
        · rw [List.mem_singleton] at h2
          exact h2 ▸ digitChar_isDigit (Nat.mod_lt n (by omega))

theorem decChars_ne_nil (n : Nat) : decChars n ≠ [] := by
  by_cases h : n < 10
  · rw [decChars_small h]; simp
  · rw [decChars_large h]; simp

theorem decChars_foldl (n : Nat) :
    ∀ acc : Nat,
      (decChars n).foldl (fun a c => a * 10 + (c.toNat - 48)) acc =
        acc * 10 ^ (decChars n).length + n := by
  induction n using Nat.strong_induction_on with
  | _ n ih =>
      intro acc
      by_cases h : n < 10
      · rw [decChars_small h]
        simp [digitChar_val h]
      · rw [decChars_large h]
        rw [List.foldl_append]
        rw [ih (n / 10) (by omega)]
        simp only [List.foldl_cons, List.foldl_nil, List.length_append,
          List.length_singleton]
        rw [digitChar_val (Nat.mod_lt n (by omega))]
        have hdm : n / 10 * 10 + n % 10 = n := by omega
        have hp : 10 ^ ((decChars (n / 10)).length + 1) =
            10 ^ (decChars (n / 10)).length * 10 := pow_succ 10 _
        rw [hp]
        ring_nf
        omega

theorem leadDigits_all (ds : List Char) (h : ∀ c ∈ ds, c.isDigit = true) :
    leadDigits ds = ds := by
  induction ds with
  | nil => rfl
  | cons c rest ih =>
      have hc : c.isDigit = true := h c (List.mem_cons_self c rest)
      rw [leadDigits, if_pos hc]
      rw [ih (fun x hx => h x (List.mem_cons_of_mem c hx))]

theorem repr_eq_decChars (n : Nat) : (Nat.repr n).data = decChars n := by
  show (Nat.toDigits 10 n).asString.data = decChars n
  show Nat.toDigitsCore 10 (n + 1) n [] = decChars n
  have key : ∀ fuel n ds, n < fuel →
      Nat.toDigitsCore 10 fuel n ds = decChars n ++ ds := by
    intro fuel
    induction fuel with
    | zero => intro n ds h; omega
    | succ f ihf =>
        intro n ds h
        rw [Nat.toDigitsCore]
        by_cases hz : n / 10 = 0
        · have hn : n < 10 := by omega
          simp only [hz, if_pos rfl]
          rw [decChars_small hn, Nat.mod_eq_of_lt hn]
          rfl
        · have hn : ¬ n < 10 := by omega
          simp only [if_neg hz]
          rw [ihf (n / 10) _ (by omega)]
          rw [decChars_large hn]
          simp
  have := key (n + 1) n [] (by omega)
  simpa using this

/-- Round trip: the identifier `FL_<k>` written by `_get_next_flow_id`
parses back to `k`. -/
theorem parseFLNum_repr (k : Nat) :
    parseFLNum ("FL_" ++ Nat.repr k) = some k := by
  have hdata : ("FL_" ++ Nat.repr k).data = 'F' :: 'L' :: '_' :: decChars k := by
    rw [String.data_append, repr_eq_decChars]
    rfl
  rw [parseFLNum, hdata]
  simp only
  rw [leadDigits_all (decChars k) (decChars_all_digits k)]
  rw [if_neg (by simpa using decChars_ne_nil k)]
  have := decChars_foldl k 0
  simp only [Nat.zero_mul, Nat.zero_add] at this
  rw [digitsToNat, this]

theorem maxFold_eq_specMax (fl : List FlowElem) :
    maxFlowIdFold fl = specMaxFL fl := by
  rw [maxFlowIdFold, maxFlowIdFold_eq_collect, specMaxFL, foldl_maxWithFL]
  omega

theorem le_foldr_max {a : Nat} {l : List Nat} (h : a ∈ l) :
    a ≤ l.foldr max 0 := by
  induction l with
  | nil => cases h
  | cons b rest ih =>
      rcases List.mem_cons.mp h with h1 | h2
      · simp [h1, le_max_iff]
      · simp only [List.foldr_cons]
        exact le_trans (ih h2) (le_max_right b _)

theorem collect_mem_le_maxFold {fl : List FlowElem} {s : String} {k : Nat}
    (hs : s ∈ collectFlowIds fl) (hk : parseFLNum s = some k) :
    k ≤ maxFlowIdFold fl := by
  rw [maxFold_eq_specMax]
  exact le_foldr_max (List.mem_filterMap.mpr ⟨s, hs, hk⟩)

theorem freshId_not_mem (fl : List FlowElem)
    (hall : ∀ s ∈ collectFlowIds fl, (parseFLNum s).isSome = true) :
    get_next_flow_id fl ∉ collectFlowIds fl := by
  intro hmem
  have hsome := hall _ hmem
  rcases Option.isSome_iff_exists.mp hsome with ⟨k, hk⟩
  have hle : k ≤ maxFlowIdFold fl := collect_mem_le_maxFold hmem hk
  have hparse : parseFLNum (get_next_flow_id fl) =
      some (maxFlowIdFold fl + 1) := parseFLNum_repr _
  have hinj : maxFlowIdFold fl + 1 = k := by
    rw [hparse] at hk
    exact Option.some.inj hk
  omega

theorem withED_flowID (e : FlowElem) (ed : List EDField) :
    (e.withED ed).flowID = e.flowID := by
  cases e; rfl

theorem withED_flow (e : FlowElem) (ed : List EDField) :
    (e.withED ed).flow = e.flow := by
  cases e; rfl

theorem withED_type (e : FlowElem) (ed : List EDField) :
    (e.withED ed).type = e.type := by
  cases e; rfl

theorem withED_embeddedData (e : FlowElem) (ed : List EDField) :
    (e.withED ed).embeddedData = ed := by
  cases e; rfl

theorem collect_cons (e : FlowElem) (rest : List FlowElem) :
    collectFlowIds (e :: rest) =
      e.flowID ::
        ((match e.flow with
          | some nested => nested.map FlowElem.flowID
          | none => []) ++ collectFlowIds rest) := rfl

theorem collect_cons_withED (e : FlowElem) (ed : List EDField)
    (rest : List FlowElem) :
    collectFlowIds (e.withED ed :: rest) = collectFlowIds (e :: rest) := by
  rw [collect_cons, collect_cons, withED_flowID, withED_flow]

theorem collect_set_withED :
    ∀ (l : List FlowElem) (i : Nat) (e : FlowElem) (ed : List EDField),
      l[i]? = some e →
      collectFlowIds (l.set i (e.withED ed)) = collectFlowIds l := by
  intro l
  induction l with
  | nil => intro i e ed h; simp at h
  | cons x rest ih =>
      intro i e ed h
      cases i with
      | zero =>
          simp only [List.getElem?_cons_zero, Option.some_inj] at h
          subst h
          rw [List.set_cons_zero]
          exact collect_cons_withED x ed rest
      | succ j =>
          simp only [List.getElem?_cons_succ] at h
          rw [List.set_cons_succ]
          rw [collect_cons, collect_cons, ih j e ed h]

theorem collect_insertIdx (x : FlowElem) (hx : x.flow = none) :
    ∀ (n : Nat) (l : List FlowElem), n ≤ l.length →
      (collectFlowIds (l.insertIdx n x)).Perm
        (x.flowID :: collectFlowIds l) := by
  intro n
  induction n with
  | zero =>
      intro l _
      rw [List.insertIdx_zero, collect_cons, hx]
      simp
  | succ m ih =>
      intro l hl
      cases l with
      | nil => simp at hl
      | cons e rest =>
          rw [List.insertIdx_succ_cons]
          rw [collect_cons, collect_cons]
          have hperm := ih rest (by simpa using hl)
          refine List.Perm.trans
            (List.Perm.cons _ (List.Perm.append_left _ hperm)) ?_
          refine List.Perm.trans (List.Perm.cons _ List.perm_middle) ?_
          exact List.Perm.swap _ _ _

theorem findEndIdx_le (fl : List FlowElem) : findEndIdx fl ≤ fl.length := by
  unfold findEndIdx
  cases h : fl.findIdx? (fun e => e.type = "EndSurvey") with
  | none => simp [h]
  | some i =>
      simp only [h]
      have := (List.findIdx?_eq_some_iff_findIdx_eq.mp h).1
      omega

theorem newEDElem_flow (fl : List FlowElem) (items : List EDField) :
    (newEDElem fl items).flow = none := rfl

theorem collect_newED_cons (fl : List FlowElem) (items : List EDField)
    (l : List FlowElem) :
    collectFlowIds (newEDElem fl items :: l) =
      get_next_flow_id fl :: collectFlowIds l := by
  rw [collect_cons]
  rfl

theorem setED_splice_start_nil (item : EDField) :
    setED_splice [] item "start" = [newEDElem [] [item]] := rfl

theorem setED_splice_start_cons (e : FlowElem) (rest : List FlowElem)
    (item : EDField) :
    setED_splice (e :: rest) item "start" =
      if e.type = "EmbeddedData" then
        e.withED (upsertIntoFields e.embeddedData item) :: rest
      else newEDElem (e :: rest) [item] :: e :: rest := rfl

theorem setED_splice_end (fl : List FlowElem) (item : EDField) (pos : String)
    (hp : pos ≠ "start") :
    setED_splice fl item pos =
      match findEndIdx fl, fl[findEndIdx fl - 1]? with
      | prev + 1, some e =>
          if e.type = "EmbeddedData" then
            fl.set prev (e.withED (upsertIntoFields e.embeddedData item))
          else fl.insertIdx (findEndIdx fl) (newEDElem fl [item])
      | _, _ => fl.insertIdx (findEndIdx fl) (newEDElem fl [item]) := by
  unfold setED_splice
  rw [if_neg hp]

theorem setEDFields_splice_start_nil (items : List EDField) :
    setEDFields_splice [] items "start" = [newEDElem [] items] := rfl

theorem setEDFields_splice_start_cons (e : FlowElem) (rest : List FlowElem)
    (items : List EDField) :
    setEDFields_splice (e :: rest) items "start" =
      if e.type = "EmbeddedData" then
        e.withED (upsertManyFields e.embeddedData items) :: rest
      else newEDElem (e :: rest) items :: e :: rest := rfl

theorem setEDFields_splice_end (fl : List FlowElem) (items : List EDField)
    (pos : String) (hp : pos ≠ "start") :
    setEDFields_splice fl items pos =
      if findEndIdx fl > 1 then
        match fl[findEndIdx fl - 1]? with
        | some e =>
            if e.type = "EmbeddedData" then
              fl.set (findEndIdx fl - 1)
                (e.withED (upsertManyFields e.embeddedData items))
            else fl.insertIdx (findEndIdx fl) (newEDElem fl items)
        | none => fl.insertIdx (findEndIdx fl) (newEDElem fl items)
      else fl.insertIdx (findEndIdx fl) (newEDElem fl items) := by
  unfold setEDFields_splice
  rw [if_neg hp]

theorem setED_collect (fl : List FlowElem) (item : EDField) (pos : String) :
    collectFlowIds (setED_splice fl item pos) = collectFlowIds fl ∨
      (collectFlowIds (setED_splice fl item pos)).Perm
        (get_next_flow_id fl :: collectFlowIds fl) := by
  by_cases hp : pos = "start"
  · subst hp
    cases fl with
    | nil =>
        right
        rw [setED_splice_start_nil, collect_newED_cons]
    | cons e rest =>
        rw [setED_splice_start_cons]
        by_cases he : e.type = "EmbeddedData"
        · rw [if_pos he]
          left
          exact collect_cons_withED e _ rest
        · rw [if_neg he]
          right
          rw [collect_newED_cons]
  · rw [setED_splice_end fl item pos hp]
    cases hE : findEndIdx fl with
    | zero =>
        simp only [hE]
        right
        exact collect_insertIdx _ (newEDElem_flow _ _) 0 fl (Nat.zero_le _)
    | succ prev =>
        cases hG : fl[prev]? with
        | none =>
            simp only [hE, Nat.add_sub_cancel, hG]
            right
            exact collect_insertIdx _ (newEDElem_flow _ _) _ fl
              (hE ▸ findEndIdx_le fl)
        | some e =>
            simp only [hE, Nat.add_sub_cancel, hG]
            by_cases he : e.type = "EmbeddedData"
            · rw [if_pos he]
              left
              exact collect_set_withED fl prev e _ hG
            · rw [if_neg he]
              right
              exact collect_insertIdx _ (newEDElem_flow _ _) _ fl
                (hE ▸ findEndIdx_le fl)

theorem setEDFields_collect (fl : List FlowElem) (items : List EDField)
    (pos : String) :
    collectFlowIds (setEDFields_splice fl items pos) = collectFlowIds fl ∨
      (collectFlowIds (setEDFields_splice fl items pos)).Perm
        (get_next_flow_id fl :: collectFlowIds fl) := by
  by_cases hp : pos = "start"
  · subst hp
    cases fl with
    | nil =>
        right
        rw [setEDFields_splice_start_nil, collect_newED_cons]
    | cons e rest =>
        rw [setEDFields_splice_start_cons]
        by_cases he : e.type = "EmbeddedData"
        · rw [if_pos he]
          left
          exact collect_cons_withED e _ rest
        · rw [if_neg he]
          right
          rw [collect_newED_cons]
  · rw [setEDFields_splice_end fl items pos hp]
    by_cases hgt : findEndIdx fl > 1
    · rw [if_pos hgt]
      cases hG : fl[findEndIdx fl - 1]? with
      | none =>
          simp only [hG]
          right
          exact collect_insertIdx _ (newEDElem_flow _ _) _ fl (findEndIdx_le fl)
      | some e =>
          simp only [hG]
          by_cases he : e.type = "EmbeddedData"
          · rw [if_pos he]
            left
            exact collect_set_withED fl _ e _ hG
          · rw [if_neg he]
            right
            exact collect_insertIdx _ (newEDElem_flow _ _) _ fl
              (findEndIdx_le fl)
    · rw [if_neg hgt]
      right
      exact collect_insertIdx _ (newEDElem_flow _ _) _ fl (findEndIdx_le fl)

/-- C1 (amended): the EmbeddedData groups created by `set_embedded_data` /
`set_embedded_data_fields` carry the FlowID `FL_<max+1>`, which matches
the `FL_<n>` pattern; and for every input flow whose FlowIDs (including
one level of nesting) all match `FL_<n>` and are pairwise distinct, the
flow written by either embedded-data upsert has pairwise-distinct FlowIDs.
(The elements created by `randomize_blocks` do not obey the `FL_<n>`
pattern; see the counterexample.) -/
theorem embedded_flow_ids_fresh :
    (∀ (fl : List FlowElem) (items : List EDField),
        (newEDElem fl items).flowID = get_next_flow_id fl ∧
          parseFLNum (get_next_flow_id fl) = some (maxFlowIdFold fl + 1)) ∧
    (∀ (fl : List FlowElem) (item : EDField) (pos : String),
        (∀ s ∈ collectFlowIds fl, (parseFLNum s).isSome = true) →
        (collectFlowIds fl).Nodup →
        (collectFlowIds (setED_splice fl item pos)).Nodup) ∧
    (∀ (fl : List FlowElem) (items : List EDField) (pos : String),
        (∀ s ∈ collectFlowIds fl, (parseFLNum s).isSome = true) →
        (collectFlowIds fl).Nodup →
        (collectFlowIds (setEDFields_splice fl items pos)).Nodup) := by
  refine ⟨fun fl items => ⟨rfl, parseFLNum_repr _⟩, ?_, ?_⟩
  · intro fl item pos hall hnd
    rcases setED_collect fl item pos with h | h
    · rw [h]; exact hnd
    · exact h.nodup_iff.mpr
        (List.nodup_cons.mpr ⟨freshId_not_mem fl hall, hnd⟩)
  · intro fl items pos hall hnd
    rcases setEDFields_collect fl items pos with h | h
    · rw [h]; exact hnd
    · exact h.nodup_iff.mpr
        (List.nodup_cons.mpr ⟨freshId_not_mem fl hall, hnd⟩)

/-- Witness for `embedded_flow_ids_fresh` on a one-block flow. -/
theorem embedded_flow_ids_fresh_witness :
    (collectFlowIds
      (setED_splice [FlowElem.mk "Block" "FL_1" "B" [] none none none none]
        (buildFieldItem "f" none) "end")).Nodup :=
  embedded_flow_ids_fresh.2.1
    [FlowElem.mk "Block" "FL_1" "B" [] none none none none]
    (buildFieldItem "f" none) "end" (by decide) (by decide)

/-- C1 counterexample: `randomize_blocks` on an empty flow with block ids
`["BL_001"]` writes a randomizer whose FlowID is
`FL_Randomizer_SV_12345` and a nested block reference with FlowID
`FL_BL_001`; neither matches the `FL_<n>` pattern. -/
theorem randomize_ids_break_pattern :
    okFlowIds
        (randomize_blocks_run ⟨[], none⟩ "SV_123456789" ["BL_001"] "random"
          false none) =
        some ["FL_Randomizer_SV_12345", "FL_BL_001"] ∧
      parseFLNum "FL_Randomizer_SV_12345" = none ∧
      parseFLNum "FL_BL_001" = none := by
  decide

/-- C2 counterexample: on the flow `[EmbeddedDataGroup, EndSurvey]`,
`set_embedded_data` with `position="end"` upserts into the group at the
very first position (its guard is `end_idx > 0`, not `end_idx > 1`),
instead of inserting a new group before `EndSurvey` as the claim requires;
the result keeps length 2 rather than the claimed 3. -/
theorem setED_end_first_position_conflation :
    (setED_splice [edGroupExample, endSurveyExample]
        (buildFieldItem "b" (some "2")) "end").map FlowElem.type =
        ["EmbeddedData", "EndSurvey"] ∧
      (setED_splice [edGroupExample, endSurveyExample]
          (buildFieldItem "b" (some "2")) "end").map FlowElem.embeddedData =
        [[buildFieldItem "a" (some "1"), buildFieldItem "b" (some "2")], []] ∧
      (setED_splice [edGroupExample, endSurveyExample]
          (buildFieldItem "b" (some "2")) "end").length ≠ 3 := by
  refine ⟨rfl, rfl, ?_⟩
  decide

/-- C2 (amended): with `position="end"`, `set_embedded_data_fields` follows
the claimed rule — it upserts into the element before the first-EndSurvey
index only when that index exceeds 1 and that element is an EmbeddedData
group, and otherwise (index at most 1, or a preceding element that is not
an EmbeddedData group) inserts a fresh group at that index;
`set_embedded_data`, however, upserts whenever the immediately preceding
element is an EmbeddedData group, even when that group sits at the very
first position.  On `[Block, EndSurvey]` both insert a new group, yielding
`[Block, EmbeddedDataGroup, EndSurvey]`. -/
theorem end_position_upsert_rule :
    (∀ (fl : List FlowElem) (items : List EDField),
        findEndIdx fl ≤ 1 →
        setEDFields_splice fl items "end" =
          fl.insertIdx (findEndIdx fl) (newEDElem fl items)) ∧
    (∀ (fl : List FlowElem) (items : List EDField) (e : FlowElem),
        findEndIdx fl > 1 →
        fl[findEndIdx fl - 1]? = some e →
        e.type = "EmbeddedData" →
        setEDFields_splice fl items "end" =
          fl.set (findEndIdx fl - 1)
            (e.withED (upsertManyFields e.embeddedData items))) ∧
    (∀ (fl : List FlowElem) (items : List EDField) (e : FlowElem),
        findEndIdx fl > 1 →
        fl[findEndIdx fl - 1]? = some e →
        e.type ≠ "EmbeddedData" →
        setEDFields_splice fl items "end" =
          fl.insertIdx (findEndIdx fl) (newEDElem fl items)) ∧
    (∀ (fl : List FlowElem) (item : EDField) (e : FlowElem) (prev : Nat),
        findEndIdx fl = prev + 1 →
        fl[prev]? = some e →
        e.type = "EmbeddedData" →
        setED_splice fl item "end" =
          fl.set prev (e.withED (upsertIntoFields e.embeddedData item))) ∧
    setED_splice [blockExample, endSurveyExample]
        (buildFieldItem "f" (some "v")) "end" =
      [blockExample,
        newEDElem [blockExample, endSurveyExample]
          [buildFieldItem "f" (some "v")],
        endSurveyExample] ∧
    setEDFields_splice [blockExample, endSurveyExample]
        [buildFieldItem "f" (some "v")] "end" =
      [blockExample,
        newEDElem [blockExample, endSurveyExample]
          [buildFieldItem "f" (some "v")],
        endSurveyExample] := by
  refine ⟨?_, ?_, ?_, ?_, rfl, rfl⟩
  · intro fl items hle
    rw [setEDFields_splice_end fl items "end" (by decide)]
    rw [if_neg (by omega)]
  · intro fl items e hgt hG he
    rw [setEDFields_splice_end fl items "end" (by decide)]
    rw [if_pos hgt]
    simp only [hG]
    rw [if_pos he]
  · intro fl items e hgt hG he
    rw [setEDFields_splice_end fl items "end" (by decide)]
    rw [if_pos hgt]
    simp only [hG]
    rw [if_neg he]
  · intro fl item e prev hE hG he
    rw [setED_splice_end fl item "end" (by decide)]
    simp only [hE, Nat.add_sub_cancel, hG]
    rw [if_pos he]

/-- Witness for `end_position_upsert_rule`: the at-most-1 rule on
`[Block, EndSurvey]`, the fresh-group insertion past index 1 on
`[Block, Block, EndSurvey]`, and the first-position upsert of
`set_embedded_data` on `[EmbeddedDataGroup, EndSurvey]`. -/
theorem end_position_upsert_rule_witness :
    setEDFields_splice [blockExample, endSurveyExample]
        [buildFieldItem "g" none] "end" =
      [blockExample, endSurveyExample].insertIdx
        (findEndIdx [blockExample, endSurveyExample])
        (newEDElem [blockExample, endSurveyExample]
          [buildFieldItem "g" none]) ∧
    setEDFields_splice [blockExample, blockExample2, endSurveyExample]
        [buildFieldItem "g" none] "end" =
      [blockExample, blockExample2, endSurveyExample].insertIdx
        (findEndIdx [blockExample, blockExample2, endSurveyExample])
        (newEDElem [blockExample, blockExample2, endSurveyExample]
          [buildFieldItem "g" none]) ∧
    setED_splice [edGroupExample, endSurveyExample]
        (buildFieldItem "b" none) "end" =
      [edGroupExample, endSurveyExample].set 0
        (edGroupExample.withED
          (upsertIntoFields edGroupExample.embeddedData
            (buildFieldItem "b" none))) :=
  ⟨end_position_upsert_rule.1 [blockExample, endSurveyExample]
      [buildFieldItem "g" none] (by decide),
   end_position_upsert_rule.2.2.1
      [blockExample, blockExample2, endSurveyExample]
      [buildFieldItem "g" none] blockExample2 (by decide) rfl (by decide),
   end_position_upsert_rule.2.2.2.1 [edGroupExample, endSurveyExample]
      (buildFieldItem "b" none) edGroupExample 0 (by decide) rfl rfl⟩

/-- C5, failing input (a code bug in `randomize_blocks`): on a fetched flow
`[Block BL_1, Block BL_2]` whose `Properties.Count` is 2, wrapping both
blocks in a randomizer writes a flow whose recursive element count is 3
(the randomizer plus two nested block references), yet the written
`Properties` are the stale fetched ones with `Count = 2` —
`randomize_blocks` keeps `current_flow.get('Properties', ...)` unchanged
instead of recomputing the count as the embedded-data operations do. -/
theorem randomize_blocks_stale_count :
    okProps
        (randomize_blocks_run ⟨[blockExample, blockExample2], some (some 2)⟩
          "SV_1" ["BL_1", "BL_2"] "random" false none) =
        some (some (some 2)) ∧
      okCount
        (randomize_blocks_run ⟨[blockExample, blockExample2], some (some 2)⟩
          "SV_1" ["BL_1", "BL_2"] "random" false none) =
        some 3 := by
  constructor
  · rfl
  · show some
        (count_flow_elements
          [buildRandomizer "SV_1" ["BL_1", "BL_2"] "random" false none]) =
      some 3
    simp [count_flow_elements, buildRandomizer, blockRef]

/-- Support for C5: on every successful run, the three embedded-data
operations write `Properties.Count` equal to the recursive element count
of the written flow. -/
theorem embedded_ops_maintain_count :
    (∀ (fetched : FlowDoc) (name ft : String) (v : Option String)
        (pos : String) (d : FlowDoc),
        (set_embedded_data_run fetched name ft v pos).result = .ok d →
        d.props = some (some (count_flow_elements d.flow))) ∧
    (∀ (fetched : FlowDoc) (fields : List (String × FieldConfig))
        (pos : String) (d : FlowDoc),
        (set_embedded_data_fields_run fetched fields pos).result = .ok d →
        d.props = some (some (count_flow_elements d.flow))) ∧
    (∀ (fetched : FlowDoc) (name : String) (d : FlowDoc),
        (delete_embedded_data_run fetched name).result = .ok d →
        d.props = some (some (count_flow_elements d.flow))) := by
  refine ⟨?_, ?_, ?_⟩
  · intro fetched name ft v pos d h
    unfold set_embedded_data_run at h
    split at h
    · exact Except.noConfusion h
    · split at h
      · exact Except.noConfusion h
      · cases Except.ok.inj h
        rfl
  · intro fetched fields pos d h
    unfold set_embedded_data_fields_run at h
    split at h
    · exact Except.noConfusion h
    · split at h
      · exact Except.noConfusion h
      · cases Except.ok.inj h
        rfl
  · intro fetched name d h
    unfold delete_embedded_data_run at h
    split at h
    · exact Except.noConfusion h
    · cases Except.ok.inj h
      rfl

/-- Witness for `embedded_ops_maintain_count` on a successful concrete
deletion. -/
theorem embedded_ops_maintain_count_witness :
    (⟨[edGroupExample.withED [], endSurveyExample],
        some (some 2)⟩ : FlowDoc).props =
      some
        (some
          (count_flow_elements
            (⟨[edGroupExample.withED [], endSurveyExample],
                some (some 2)⟩ : FlowDoc).flow)) := by
  have happ := embedded_ops_maintain_count.2.2
    ⟨[edGroupExample, endSurveyExample], none⟩ "a"
    ⟨[edGroupExample.withED [], endSurveyExample], some (some 2)⟩
  apply happ
  simp [delete_embedded_data_run, deleteED_splice, edGroupExample,
    endSurveyExample, buildFieldItem, count_flow_elements, FlowElem.withED,
    FlowElem.type, FlowElem.embeddedData]

theorem buildEDItems_error_of_any :
    ∀ (fields : List (String × FieldConfig)),
      (fields.any fun p => !(valid_types.contains (p.2.ftype.getD "text"))) =
        true →
      ∃ msg, buildEDItems fields = .error msg := by
  intro fields
  induction fields with
  | nil => intro h; simp at h
  | cons p rest ih =>
      intro h
      obtain ⟨name, cfg⟩ := p
      rw [List.any_cons] at h
      by_cases hp : valid_types.contains (cfg.ftype.getD "text")
      · have h1 : (!(valid_types.contains (cfg.ftype.getD "text"))) = false := by
          simp
          simpa using hp
        rw [h1, Bool.false_or] at h
        have hrest : (rest.any fun p =>
            !(valid_types.contains (p.2.ftype.getD "text"))) = true := h
        obtain ⟨msg, hmsg⟩ := ih hrest
        refine ⟨msg, ?_⟩
        unfold buildEDItems
        rw [if_neg (by simpa using hp), hmsg]
        rfl
      · refine ⟨"field_type for " ++ name ++
          " must be one of [text, number, date]", ?_⟩
        unfold buildEDItems
        rw [if_pos (by simpa using hp)]

theorem buildCondEntries_error_of_mem :
    ∀ (conds : List CondInput) (i : Nat) (conj : String),
      (∃ c ∈ conds, OPERATORS.contains c.operator = false) →
      ∃ msg, buildCondEntries conj i conds = .error msg := by
  intro conds
  induction conds with
  | nil =>
      intro i conj h
      obtain ⟨c, hc, _⟩ := h
      cases hc
  | cons c rest ih =>
      intro i conj h
      by_cases hc : OPERATORS.contains c.operator
      · obtain ⟨e, he, hbad⟩ := h
        rcases List.mem_cons.mp he with h1 | h2
        · rw [h1] at hbad
          rw [hbad] at hc
          cases hc
        · obtain ⟨msg, hmsg⟩ := ih (i + 1) conj ⟨e, h2, hbad⟩
          refine ⟨msg, ?_⟩
          unfold buildCondEntries
          rw [if_neg (by simpa using hc), hmsg]
          rfl
      · refine ⟨"Invalid operator " ++ c.operator ++ " in condition " ++
          Nat.repr i, ?_⟩
        unfold buildCondEntries
        rw [if_pos (by simpa using hc)]

/-- C3 counterexample: calling `set_embedded_data_fields` with an invalid
field type (and a valid position) raises the validation error only after
the flow GET has been issued — the event list is `[getFlow]`, not `[]` as
the claim requires of validation errors. -/
theorem fields_type_check_after_get :
    (set_embedded_data_fields_run ⟨[], none⟩
        [("a", ⟨some "bogus", none⟩)] "start").events = [NetEvent.getFlow] ∧
      runFailed
        (set_embedded_data_fields_run ⟨[], none⟩
          [("a", ⟨some "bogus", none⟩)] "start") = true ∧
      (set_embedded_data_fields_run ⟨[], none⟩
        [("a", ⟨some "bogus", none⟩)] "start").events ≠ [] := by
  decide

/-- C3 (amended): every one of the six validation errors is raised before
any write (no PUT ever appears in the event trace of a failed validation),
and all of them except the per-field type check of
`set_embedded_data_fields` are raised before any network call at all; that
one check runs after the initial flow GET (but still before the PUT). -/
theorem validation_before_write :
    (∀ (fetched : FlowDoc) (name ft : String) (v : Option String)
        (pos : String),
        ¬ valid_types.contains ft →
        (set_embedded_data_run fetched name ft v pos).events = [] ∧
          runFailed (set_embedded_data_run fetched name ft v pos) = true) ∧
    (∀ (fetched : FlowDoc) (name ft : String) (v : Option String)
        (pos : String),
        pos ≠ "start" ∧ pos ≠ "end" →
        (set_embedded_data_run fetched name ft v pos).events = [] ∧
          runFailed (set_embedded_data_run fetched name ft v pos) = true) ∧
    (∀ (fetched : FlowDoc) (fields : List (String × FieldConfig))
        (pos : String),
        pos ≠ "start" ∧ pos ≠ "end" →
        (set_embedded_data_fields_run fetched fields pos).events = [] ∧
          runFailed (set_embedded_data_fields_run fetched fields pos) =
            true) ∧
    (∀ (fetched : FlowDoc) (fields : List (String × FieldConfig))
        (pos : String),
        (fields.any fun p =>
          !(valid_types.contains (p.2.ftype.getD "text"))) = true →
        NetEvent.putFlow ∉
            (set_embedded_data_fields_run fetched fields pos).events ∧
          runFailed (set_embedded_data_fields_run fetched fields pos) =
            true) ∧
    (∀ (conds : List CondInput) (conjunction : String),
        (conjunction ≠ "AND" ∧ conjunction ≠ "OR") ∨ conds = [] ∨
          (∃ c ∈ conds, OPERATORS.contains c.operator = false) →
        (add_display_logic_multiple_run conds conjunction).events = [] ∧
          runFailed (add_display_logic_multiple_run conds conjunction) =
            true) ∧
    (∀ (fetched : FlowDoc) (survey : String) (bids : List String)
        (rtype : String) (ev : Bool) (c : Nat),
        c ≥ bids.length →
        (randomize_blocks_run fetched survey bids rtype ev (some c)).events =
            [] ∧
          runFailed (randomize_blocks_run fetched survey bids rtype ev
            (some c)) = true) := by
  refine ⟨?_, ?_, ?_, ?_, ?_, ?_⟩
  · intro fetched name ft v pos hft
    unfold set_embedded_data_run
    rw [if_pos hft]
    exact ⟨rfl, rfl⟩
  · intro fetched name ft v pos hpos
    by_cases hft : valid_types.contains ft
    · unfold set_embedded_data_run
      rw [if_neg (by simpa using hft), if_pos hpos]
      exact ⟨rfl, rfl⟩
    · unfold set_embedded_data_run
      rw [if_pos hft]
      exact ⟨rfl, rfl⟩
  · intro fetched fields pos hpos
    unfold set_embedded_data_fields_run
    rw [if_pos hpos]
    exact ⟨rfl, rfl⟩
  · intro fetched fields pos hany
    unfold set_embedded_data_fields_run
    by_cases hpos : pos ≠ "start" ∧ pos ≠ "end"
    · rw [if_pos hpos]
      exact ⟨by simp, rfl⟩
    · rw [if_neg hpos]
      obtain ⟨msg, hmsg⟩ := buildEDItems_error_of_any fields hany
      rw [hmsg]
      exact ⟨by simp, rfl⟩
  · intro conds conjunction h
    unfold add_display_logic_multiple_run
    by_cases hc : conjunction ≠ "AND" ∧ conjunction ≠ "OR"
    · rw [if_pos hc]
      exact ⟨rfl, rfl⟩
    · rw [if_neg hc]
      by_cases he : conds.isEmpty
      · rw [if_pos he]
        exact ⟨rfl, rfl⟩
      · rw [if_neg he]
        have hop : ∃ c ∈ conds, OPERATORS.contains c.operator = false := by
          rcases h with h1 | h2 | h3
          · exact absurd h1 hc
          · rw [h2] at he
            exact absurd rfl he
          · exact h3
        obtain ⟨msg, hmsg⟩ := buildCondEntries_error_of_mem conds 0
          conjunction hop
        rw [hmsg]
        exact ⟨rfl, rfl⟩
  · intro fetched survey bids rtype ev c hc
    unfold randomize_blocks_run
    rw [if_pos (by simpa using hc)]
    exact ⟨rfl, rfl⟩

/-- Witness for `validation_before_write` at concrete invalid inputs. -/
theorem validation_before_write_witness :
    ((set_embedded_data_run ⟨[], none⟩ "f" "bogus" none "start").events =
        [] ∧
      runFailed (set_embedded_data_run ⟨[], none⟩ "f" "bogus" none "start") =
        true) ∧
    ((set_embedded_data_fields_run ⟨[], none⟩ [] "middle").events = [] ∧
      runFailed (set_embedded_data_fields_run ⟨[], none⟩ [] "middle") =
        true) ∧
    (NetEvent.putFlow ∉
        (set_embedded_data_fields_run ⟨[], none⟩
          [("a", ⟨some "bogus", none⟩)] "start").events ∧
      runFailed
        (set_embedded_data_fields_run ⟨[], none⟩
          [("a", ⟨some "bogus", none⟩)] "start") = true) ∧
    ((add_display_logic_multiple_run [] "XOR").events = [] ∧
      runFailed (add_display_logic_multiple_run [] "XOR") = true) ∧
    ((randomize_blocks_run ⟨[], none⟩ "SV_1" ["BL_1"] "random" false
        (some 1)).events = [] ∧
      runFailed (randomize_blocks_run ⟨[], none⟩ "SV_1" ["BL_1"] "random"
        false (some 1)) = true) :=
  ⟨validation_before_write.1 ⟨[], none⟩ "f" "bogus" none "start" (by decide),
   validation_before_write.2.2.1 ⟨[], none⟩ [] "middle" (by decide),
   validation_before_write.2.2.2.1 ⟨[], none⟩
     [("a", ⟨some "bogus", none⟩)] "start" (by decide),
   validation_before_write.2.2.2.2.1 [] "XOR" (Or.inl (by decide)),
   validation_before_write.2.2.2.2.2 ⟨[], none⟩ "SV_1" ["BL_1"] "random"
     false 1 (by decide)⟩

/-- C4 counterexample: with two conditions and conjunction `"AND"`, the
entry at index 1 carries `Conjunction = "And"` (Python
`"AND".capitalize()`), which differs from the conjunction argument
`"AND"`. -/
theorem conjunction_tag_capitalized :
    entriesConj (add_display_logic_multiple_run [condInputA, condInputB]
        "AND") = some [none, some "And"] ∧
      (some "And" : Option String) ≠ some "AND" := by
  decide

theorem buildCondEntries_ok_spec (conj : String) :
    ∀ (conds : List CondInput) (i0 : Nat),
      (∀ c ∈ conds, OPERATORS.contains c.operator = true) →
      ∃ entries,
        buildCondEntries conj i0 conds = .ok entries ∧
        entries.length = conds.length ∧
        entries.map (fun en => en.key) =
          (List.range conds.length).map (fun k => Nat.repr (i0 + k)) ∧
        (∀ (i : Nat) (hi : i < entries.length),
          (entries.get ⟨i, hi⟩).conjunction =
            if i0 + i > 0 then some (pyCapitalize conj) else none) ∧
        (∀ (i : Nat) (hi : i < entries.length) (hc : i < conds.length),
          (entries.get ⟨i, hi⟩).cond =
            build_condition (conds.get ⟨i, hc⟩).source_question_id
              (conds.get ⟨i, hc⟩).operator
              (conds.get ⟨i, hc⟩).choice_locator
              (conds.get ⟨i, hc⟩).value "Question") := by
  intro conds
  induction conds with
  | nil =>
      intro i0 _
      refine ⟨[], rfl, rfl, by simp, ?_, ?_⟩
      · intro i hi
        simp at hi
      · intro i hi
        simp at hi
  | cons c rest ih =>
      intro i0 hops
      have hc : OPERATORS.contains c.operator = true :=
        hops c (List.mem_cons_self c rest)
      obtain ⟨entries, hok, hlen, hkeys, hconj, hcond⟩ :=
        ih (i0 + 1) (fun x hx => hops x (List.mem_cons_of_mem c hx))
      refine ⟨⟨Nat.repr i0,
          if i0 > 0 then some (pyCapitalize conj) else none,
          build_condition c.source_question_id c.operator
            c.choice_locator c.value "Question"⟩ :: entries, ?_, ?_, ?_, ?_, ?_⟩
      · unfold buildCondEntries
        rw [if_neg (by simpa using hc), hok]
        rfl
      · simpa using hlen
      · show Nat.repr i0 :: entries.map (fun en => en.key) =
          (List.range (rest.length + 1)).map (fun k => Nat.repr (i0 + k))
        rw [hkeys, List.range_succ_eq_map, List.map_cons, List.map_map]
        congr 1
        apply List.map_congr_left
        intro k _
        simp only [Function.comp_apply]
        exact congrArg Nat.repr (by omega)
      · intro i hi
        cases i with
        | zero =>
            simp only [List.get]
            by_cases h0 : i0 > 0
            · rw [if_pos h0, if_pos (by omega)]
            · rw [if_neg h0, if_neg (by omega)]
        | succ j =>
            have hj : j < entries.length := by
              simp at hi
              omega
            have := hconj j hj
            simp only [List.get]
            rw [this]
            rw [if_pos (by omega), if_pos (by omega)]
      · intro i hi hcl
        cases i with
        | zero => rfl
        | succ j =>
            have hj : j < entries.length := by
              simp at hi
              omega
            have hjc : j < rest.length := by
              simp at hcl
              omega
            have := hcond j hj hjc
            simp only [List.get]
            exact this

/-- C4 (amended): for every non-empty list of N valid conditions and
conjunction C in {AND, OR}, the built expression has exactly N condition
entries keyed `"0" .. "N-1"` in input order; entry 0 carries no
`Conjunction` field, and every later entry carries
`Conjunction = C.capitalize()` — the wire value `"And"` / `"Or"`, not the
argument `C` itself. -/
theorem display_logic_entries_shape (conds : List CondInput) (C : String)
    (hC : C = "AND" ∨ C = "OR") (hne : conds ≠ [])
    (hops : ∀ c ∈ conds, OPERATORS.contains c.operator = true) :
    ∃ entries,
      (add_display_logic_multiple_run conds C).result = .ok entries ∧
      entries.length = conds.length ∧
      entries.map (fun en => en.key) =
        (List.range conds.length).map Nat.repr ∧
      (∀ (i : Nat) (hi : i < entries.length),
        (entries.get ⟨i, hi⟩).conjunction =
          if i = 0 then none else some (pyCapitalize C)) ∧
      (∀ (i : Nat) (hi : i < entries.length) (hc : i < conds.length),
        (entries.get ⟨i, hi⟩).cond =
          build_condition (conds.get ⟨i, hc⟩).source_question_id
            (conds.get ⟨i, hc⟩).operator (conds.get ⟨i, hc⟩).choice_locator
            (conds.get ⟨i, hc⟩).value "Question") := by
  obtain ⟨entries, hok, hlen, hkeys, hconj, hcond⟩ :=
    buildCondEntries_ok_spec C conds 0 hops
  refine ⟨entries, ?_, hlen, ?_, ?_, hcond⟩
  · unfold add_display_logic_multiple_run
    rw [if_neg (by rcases hC with h | h <;> simp [h])]
    rw [if_neg (by simpa using hne)]
    rw [hok]
  · rw [hkeys]
    apply List.map_congr_left
    intro k _
    simp
  · intro i hi
    have := hconj i hi
    cases i with
    | zero =>
        rw [this, if_neg (by omega), if_pos rfl]
    | succ j =>
        rw [this, if_pos (by omega), if_neg (by omega)]

/-- Witness for `display_logic_entries_shape` on two conditions with
conjunction OR. -/
theorem display_logic_entries_shape_witness :
    ∃ entries,
      (add_display_logic_multiple_run [condInputA, condInputB] "OR").result =
        .ok entries ∧
      entries.length = [condInputA, condInputB].length ∧
      entries.map (fun en => en.key) =
        (List.range [condInputA, condInputB].length).map Nat.repr ∧
      (∀ (i : Nat) (hi : i < entries.length),
        (entries.get ⟨i, hi⟩).conjunction =
          if i = 0 then none else some (pyCapitalize "OR")) ∧
      (∀ (i : Nat) (hi : i < entries.length)
          (hc : i < [condInputA, condInputB].length),
        (entries.get ⟨i, hi⟩).cond =
          build_condition
            ([condInputA, condInputB].get ⟨i, hc⟩).source_question_id
            ([condInputA, condInputB].get ⟨i, hc⟩).operator
            ([condInputA, condInputB].get ⟨i, hc⟩).choice_locator
            ([condInputA, condInputB].get ⟨i, hc⟩).value "Question") :=
  display_logic_entries_shape [condInputA, condInputB] "OR" (Or.inr rfl)
    (by decide) (by decide)

theorem filter_length_ne_iff (fields : List EDField) (name : String) :
    (fields.filter (fun f => f.field ≠ name)).length ≠ fields.length ↔
      fields.any (fun f => f.field = name) = true := by
  induction fields with
  | nil => simp
  | cons f rest ih =>
      by_cases hf : f.field = name
      · simp [hf]
        have hlen : (rest.filter (fun f => !decide (f.field = name))).length ≤
            rest.length := List.length_filter_le _ _
        omega
      · simp [hf]

theorem delete_cond_eq (e : FlowElem) (name : String) :
    (decide (e.type = "EmbeddedData") &&
      decide ((e.embeddedData.filter (fun f => f.field ≠ name)).length ≠
        e.embeddedData.length)) = groupContains e name := by
  unfold groupContains
  have hy : decide
      ((e.embeddedData.filter (fun f => f.field ≠ name)).length ≠
        e.embeddedData.length) =
      e.embeddedData.any (fun f => f.field = name) := by
    cases hb : e.embeddedData.any (fun f => f.field = name) with
    | true => exact decide_eq_true ((filter_length_ne_iff _ _).mpr hb)
    | false =>
        apply decide_eq_false
        intro hcontra
        rw [(filter_length_ne_iff _ _).mp hcontra] at hb
        cases hb
  rw [hy]

theorem bool_ne_true_eq_false {b : Bool} (h : ¬ b = true) : b = false := by
  cases b
  · rfl
  · exact absurd rfl h

theorem deleteED_none_iff (name : String) :
    ∀ fl : List FlowElem,
      deleteED_splice fl name = none ↔
        ∀ e ∈ fl, groupContains e name = false := by
  intro fl
  induction fl with
  | nil => simp [deleteED_splice]
  | cons e rest ih =>
      unfold deleteED_splice
      rw [delete_cond_eq]
      by_cases hg : groupContains e name = true
      · rw [if_pos hg]
        constructor
        · intro h
          cases h
        · intro h
          have := h e (List.mem_cons_self e rest)
          rw [hg] at this
          cases this
      · rw [if_neg hg]
        rw [Option.map_eq_none']
        rw [ih]
        constructor
        · intro h x hx
          rcases List.mem_cons.mp hx with h1 | h2
          · rw [h1]
            exact bool_ne_true_eq_false hg
          · exact h x h2
        · intro h x hx
          exact h x (List.mem_cons_of_mem e hx)

theorem deleteED_some_spec (name : String) :
    ∀ (fl fl2 : List FlowElem),
      deleteED_splice fl name = some fl2 →
      ∃ pre e post,
        fl = pre ++ e :: post ∧
        (∀ x ∈ pre, groupContains x name = false) ∧
        groupContains e name = true ∧
        fl2 = pre ++
          e.withED (e.embeddedData.filter (fun f => f.field ≠ name)) ::
            post := by
  intro fl
  induction fl with
  | nil =>
      intro fl2 h
      simp [deleteED_splice] at h
  | cons e rest ih =>
      intro fl2 h
      unfold deleteED_splice at h
      rw [delete_cond_eq] at h
      by_cases hg : groupContains e name = true
      · rw [if_pos hg] at h
        refine ⟨[], e, rest, rfl, by simp, hg, ?_⟩
        rw [List.nil_append]
        exact (Option.some.inj h).symm
      · rw [if_neg hg] at h
        rcases Option.map_eq_some'.mp h with ⟨l2, hl2, hfl2⟩
        obtain ⟨pre, g, post, hsplit, hpre, hgrp, hres⟩ := ih l2 hl2
        refine ⟨e :: pre, g, post, by rw [hsplit, List.cons_append], ?_,
          hgrp, ?_⟩
        · intro x hx
          rcases List.mem_cons.mp hx with h1 | h2
          · rw [h1]
            exact bool_ne_true_eq_false hg
          · exact hpre x h2
        · rw [← hfl2, hres, List.cons_append]

/-- C8: `delete_embedded_data` fails with the field-not-found error exactly
when no EmbeddedData group of the flow contains a field with the given
name; in that case the run issues only the flow GET (no write, the fetched
flow is never rewritten); when some group contains the field, the run
succeeds and the written flow removes the name-matching fields from the
first group containing one, leaving every other element unchanged. -/
theorem delete_field_not_found (name : String) :
    (∀ fl : List FlowElem,
        deleteED_splice fl name = none ↔
          ∀ e ∈ fl, groupContains e name = false) ∧
    (∀ fetched : FlowDoc,
        deleteED_splice fetched.flow name = none →
        (delete_embedded_data_run fetched name).events = [NetEvent.getFlow] ∧
          runFailed (delete_embedded_data_run fetched name) = true) ∧
    (∀ (fetched : FlowDoc) (fl2 : List FlowElem),
        deleteED_splice fetched.flow name = some fl2 →
        (delete_embedded_data_run fetched name).events =
            [NetEvent.getFlow, NetEvent.putFlow] ∧
          runFailed (delete_embedded_data_run fetched name) = false) ∧
    (∀ (fl fl2 : List FlowElem),
        deleteED_splice fl name = some fl2 →
        ∃ pre e post,
          fl = pre ++ e :: post ∧
          (∀ x ∈ pre, groupContains x name = false) ∧
          groupContains e name = true ∧
          fl2 = pre ++
            e.withED (e.embeddedData.filter (fun f => f.field ≠ name)) ::
              post) := by
  refine ⟨deleteED_none_iff name, ?_, ?_, deleteED_some_spec name⟩
  · intro fetched h
    unfold delete_embedded_data_run
    rw [h]
    exact ⟨rfl, rfl⟩
  · intro fetched fl2 h
    unfold delete_embedded_data_run
    rw [h]
    exact ⟨rfl, rfl⟩

/-- Witness for `delete_field_not_found`: a not-found run on
`[Block, EndSurvey]` and a successful run on a flow holding field `a`. -/
theorem delete_field_not_found_witness :
    ((delete_embedded_data_run ⟨[blockExample, endSurveyExample], none⟩
          "missing").events = [NetEvent.getFlow] ∧
      runFailed
        (delete_embedded_data_run ⟨[blockExample, endSurveyExample], none⟩
          "missing") = true) ∧
    ((delete_embedded_data_run ⟨[edGroupExample], none⟩ "a").events =
        [NetEvent.getFlow, NetEvent.putFlow] ∧
      runFailed (delete_embedded_data_run ⟨[edGroupExample], none⟩ "a") =
        false) :=
  ⟨(delete_field_not_found "missing").2.1
      ⟨[blockExample, endSurveyExample], none⟩ rfl,
   (delete_field_not_found "a").2.2.1 ⟨[edGroupExample], none⟩
      [edGroupExample.withED []] rfl⟩

theorem updateField_eq_of_some (f item : EDField) (v : String)
    (hv : item.value = some v) : updateField f item = item := by
  cases item with
  | mk d t fld vt dv val =>
      simp at hv
      subst hv
      rfl

theorem replaceFirst_filter_count (item : EDField) :
    ∀ (fields : List EDField),
      (fields.filter (fun f => f.field = item.field)).length ≤ 1 →
      fields.any (fun f => f.field = item.field) = true →
      ((replaceFirstField fields item).filter
          (fun f => f.field = item.field)).length = 1 ∧
        (∀ v : String, item.value = some v →
          (replaceFirstField fields item).filter
            (fun f => f.field = item.field) = [item]) := by
  intro fields
  induction fields with
  | nil =>
      intro _ hany
      simp at hany
  | cons f rest ih =>
      intro hle hany
      by_cases hf : f.field = item.field
      · have hrest : (rest.filter (fun f => f.field = item.field)).length =
            0 := by
          rw [List.filter_cons] at hle
          rw [if_pos (by simpa using hf)] at hle
          rw [List.length_cons] at hle
          omega
        have hrestnil : rest.filter (fun f => f.field = item.field) = [] :=
          List.length_eq_zero.mp hrest
        unfold replaceFirstField
        rw [if_pos hf]
        have hufld : (updateField f item).field = item.field := rfl
        constructor
        · simp [hufld, hrestnil]
        · intro v hv
          rw [updateField_eq_of_some f item v hv]
          simp [hrestnil]
      · have hle2 : (rest.filter (fun f => f.field = item.field)).length ≤
            1 := by
          simp [hf] at hle
          simpa using hle
        have hany2 : rest.any (fun f => f.field = item.field) = true := by
          rcases List.any_eq_true.mp hany with ⟨x, hx, hxf⟩
          rcases List.mem_cons.mp hx with h1 | h2
          · rw [h1] at hxf
            simp at hxf
            exact absurd hxf hf
          · exact List.any_eq_true.mpr ⟨x, h2, hxf⟩
        obtain ⟨hcount, hval⟩ := ih hle2 hany2
        unfold replaceFirstField
        rw [if_neg hf]
        constructor
        · simp [hf]
          simpa using hcount
        · intro v hv
          simp [hf]
          simpa using hval v hv

theorem upsert_filter_count (fields : List EDField) (item : EDField)
    (hle : (fields.filter (fun f => f.field = item.field)).length ≤ 1) :
    ((upsertIntoFields fields item).filter
        (fun f => f.field = item.field)).length = 1 ∧
      (∀ v : String, item.value = some v →
        (upsertIntoFields fields item).filter
          (fun f => f.field = item.field) = [item]) := by
  unfold upsertIntoFields
  by_cases hany : fields.any (fun f => f.field = item.field) = true
  · rw [if_pos hany]
    exact replaceFirst_filter_count item fields hle hany
  · rw [if_neg hany]
    have hnil : fields.filter (fun f => f.field = item.field) = [] := by
      rw [List.filter_eq_nil_iff]
      intro x hx
      intro hxf
      exact hany (List.any_eq_true.mpr ⟨x, hx, by simpa using hxf⟩)
    rw [List.filter_append, hnil]
    constructor
    · simp
    · intro v _
      simp

/-- C9 counterexample: on a flow whose start group already holds two
fields named `a`, two start-position upserts of `a` update only the first
occurrence; the start group still holds two fields named `a` afterwards,
not exactly one. -/
theorem start_upsert_duplicate_survives :
    (setED_splice
          (setED_splice [dupGroupExample] (buildFieldItem "a" (some "x"))
            "start")
          (buildFieldItem "a" (some "x")) "start").map
        FlowElem.embeddedData =
      [[buildFieldItem "a" (some "x"), buildFieldItem "a" (some "2")]] ∧
    (((setED_splice
          (setED_splice [dupGroupExample] (buildFieldItem "a" (some "x"))
            "start")
          (buildFieldItem "a" (some "x")) "start").map
        FlowElem.embeddedData).headD []).filter
        (fun f => f.field = "a") ≠ [buildFieldItem "a" (some "x")] := by
  decide

/-- C9 (amended): for every flow whose first element, when it is an
EmbeddedData group, holds at most one field with the given name, two
start-position upserts of that name leave the start group with exactly one
field of that name, and it is the item built by the second call — the
second call's value wins — provided the second call supplies a value. -/
theorem start_upsert_second_value_wins (fl : List FlowElem) (F : String)
    (v1 : Option String) (v2 : String)
    (hstart : ∀ e, fl.head? = some e → e.type = "EmbeddedData" →
      (e.embeddedData.filter (fun f => f.field = F)).length ≤ 1) :
    ∃ g rest,
      setED_splice (setED_splice fl (buildFieldItem F v1) "start")
          (buildFieldItem F (some v2)) "start" = g :: rest ∧
      g.type = "EmbeddedData" ∧
      g.embeddedData.filter (fun f => f.field = F) =
        [buildFieldItem F (some v2)] := by
  have step1 : ∃ g1 rest1,
      setED_splice fl (buildFieldItem F v1) "start" = g1 :: rest1 ∧
      g1.type = "EmbeddedData" ∧
      (g1.embeddedData.filter (fun f => f.field = F)).length ≤ 1 := by
    cases fl with
    | nil =>
        refine ⟨newEDElem [] [buildFieldItem F v1], [],
          setED_splice_start_nil _, rfl, ?_⟩
        show ([buildFieldItem F v1].filter (fun f => f.field = F)).length ≤ 1
        simp [buildFieldItem]
    | cons e rest =>
        by_cases he : e.type = "EmbeddedData"
        · refine ⟨e.withED (upsertIntoFields e.embeddedData
              (buildFieldItem F v1)), rest, ?_, ?_, ?_⟩
          · rw [setED_splice_start_cons, if_pos he]
          · rw [withED_type]
            exact he
          · rw [withED_embeddedData]
            have hle := hstart e rfl he
            have h1 : ((upsertIntoFields e.embeddedData
                (buildFieldItem F v1)).filter
                (fun f => f.field = F)).length = 1 :=
              (upsert_filter_count e.embeddedData (buildFieldItem F v1)
                hle).1
            omega
        · refine ⟨newEDElem (e :: rest) [buildFieldItem F v1], e :: rest,
            ?_, rfl, ?_⟩
          · rw [setED_splice_start_cons, if_neg he]
          · show ([buildFieldItem F v1].filter
              (fun f => f.field = F)).length ≤ 1
            simp [buildFieldItem]
  obtain ⟨g1, rest1, heq1, hty1, hcnt1⟩ := step1
  rw [heq1, setED_splice_start_cons, if_pos hty1]
  refine ⟨g1.withED (upsertIntoFields g1.embeddedData
      (buildFieldItem F (some v2))), rest1, rfl, ?_, ?_⟩
  · rw [withED_type]
    exact hty1
  · rw [withED_embeddedData]
    exact (upsert_filter_count g1.embeddedData
      (buildFieldItem F (some v2)) hcnt1).2 v2 rfl

/-- Witness for `start_upsert_second_value_wins` on a flow starting with a
plain block. -/
theorem start_upsert_second_value_wins_witness :
    ∃ g rest,
      setED_splice
          (setED_splice [blockExample] (buildFieldItem "a" (some "1"))
            "start")
          (buildFieldItem "a" (some "2")) "start" = g :: rest ∧
      g.type = "EmbeddedData" ∧
      g.embeddedData.filter (fun f => f.field = "a") =
        [buildFieldItem "a" (some "2")] :=
  start_upsert_second_value_wins [blockExample] "a" (some "1") "2"
    (by decide)

theorem buildEDItems_ok_of_valid :
    ∀ fields : List (String × FieldConfig),
      (∀ p ∈ fields,
        valid_types.contains (p.2.ftype.getD "text") = true) →
      buildEDItems fields =
        .ok (fields.map (fun p => buildFieldItem p.1 p.2.value)) := by
  intro fields
  induction fields with
  | nil => intro _; rfl
  | cons p rest ih =>
      intro h
      obtain ⟨name, cfg⟩ := p
      have hp : valid_types.contains (cfg.ftype.getD "text") = true :=
        h (name, cfg) (List.mem_cons_self _ rest)
      unfold buildEDItems
      rw [if_neg (by simpa using hp)]
      rw [ih (fun q hq => h q (List.mem_cons_of_mem _ hq))]
      rfl

/-- C10: the embedded-data field object written by `set_embedded_data` and
`set_embedded_data_fields` always carries `VariableType = "String"`, and
the `field_type` argument influences nothing but validation: two runs of
`set_embedded_data` that differ only in a (valid) `field_type` write the
same document, and the items `set_embedded_data_fields` builds from valid
configurations depend only on the field names and values. -/
theorem variable_type_always_string :
    (∀ (name : String) (v : Option String),
        (buildFieldItem name v).variableType = "String") ∧
    (∀ (fetched : FlowDoc) (name : String) (v : Option String)
        (pos ft1 ft2 : String),
        valid_types.contains ft1 = true →
        valid_types.contains ft2 = true →
        set_embedded_data_run fetched name ft1 v pos =
          set_embedded_data_run fetched name ft2 v pos) ∧
    (∀ fields : List (String × FieldConfig),
        (∀ p ∈ fields,
          valid_types.contains (p.2.ftype.getD "text") = true) →
        buildEDItems fields =
          .ok (fields.map (fun p => buildFieldItem p.1 p.2.value))) := by
  refine ⟨fun _ _ => rfl, ?_, buildEDItems_ok_of_valid⟩
  intro fetched name v pos ft1 ft2 h1 h2
  unfold set_embedded_data_run
  rw [if_neg (show ¬ ¬ valid_types.contains ft1 = true from fun hc => hc h1)]
  rw [if_neg (show ¬ ¬ valid_types.contains ft2 = true from fun hc => hc h2)]

/-- Witness for `variable_type_always_string`: `"text"` and `"date"` runs
write the same document. -/
theorem variable_type_always_string_witness :
    set_embedded_data_run ⟨[blockExample], none⟩ "f" "text" (some "v")
        "start" =
      set_embedded_data_run ⟨[blockExample], none⟩ "f" "date" (some "v")
        "start" :=
  variable_type_always_string.2.1 ⟨[blockExample], none⟩ "f" (some "v")
    "start" "text" "date" (by decide) (by decide)
